import Mathlib

/-!
EEPROM driver of sduino for the STM8 (`EEPROM.c`)

A shallow embedding of `hardware/sduino/stm8/libraries/EEPROM/src/EEPROM.c`.

* The STM8 is a 16-bit target: `int`, `uint16_t` and data pointers are 16 bits
  wide, so every `uint16_t` operation of the source is taken modulo `65536`.
* There is one 16-bit address space. The two FLASH controller registers the
  driver uses, `FLASH->IAPSR` and `FLASH->DUKR`, sit at addresses of that space
  (`IAPSR_address`, `DUKR_address`); every other address is a plain byte. A
  store or load through a pointer (`store_byte`, `load_byte`) reaches a
  register when the pointer holds its address, exactly as the named accesses
  `FLASH->IAPSR` and `FLASH->DUKR` do.
* The caller's buffer `uint8_t *ptr` is a 16-bit address of that same space.
* The state also lists the stores made to the two registers, oldest first.
* What the controller does to the status register when a key is stored to
  `FLASH->DUKR` is not part of the C source; it is the field `dukr_response`
  of the target description, so that every theorem holds for hardware whose
  unlock succeeds as well as for hardware whose unlock fails.
-/

namespace EEPROM

/-- A store made by the program to one of the two FLASH controller registers. -/
inductive RegStore where
  | DUKR (v : Nat)
  | IAPSR (v : Nat)
deriving DecidableEq, Repr

/-- The constants `EEPROM.c` takes from the device headers, the addresses of
the two registers, and the reaction of the FLASH controller to a store to the
key register: `dukr_response log st` is the new value of the status register
when the register stores so far are `log` (the key just stored being its last
element) and the status register was `st`. -/
structure Target where
  FLASH_DATA_START_PHYSICAL_ADDRESS : Nat
  E2END : Nat
  FLASH_FLAG_DUL : Nat
  FLASH_RASS_KEY1 : Nat
  FLASH_RASS_KEY2 : Nat
  IAPSR_address : Nat
  DUKR_address : Nat
  dukr_response : List RegStore → Nat → Nat

/-- The state the driver acts on: the status register, the key register, the
register stores made so far, and the bytes at all other addresses. -/
structure Hw where
  IAPSR : Nat
  DUKR : Nat
  stores : List RegStore
  mem : Nat → Nat

/-- The assignment `FLASH->DUKR = v`: the store is recorded and the controller reacts. -/
def store_DUKR (t : Target) (s : Hw) (v : Nat) : Hw :=
  { s with
    DUKR := v
    stores := s.stores ++ [RegStore.DUKR v]
    IAPSR := t.dukr_response (s.stores ++ [RegStore.DUKR v]) s.IAPSR }

/-- The assignment `FLASH->IAPSR = v`. -/
def store_IAPSR (s : Hw) (v : Nat) : Hw :=
  { s with stores := s.stores ++ [RegStore.IAPSR v], IAPSR := v }

/-- The assignment `*((uint8_t *) a) = v` for a 16-bit address `a`. -/
def store_byte (t : Target) (s : Hw) (a v : Nat) : Hw :=
  if a = t.IAPSR_address then store_IAPSR s v
  else if a = t.DUKR_address then store_DUKR t s v
  else { s with mem := Function.update s.mem a v }

/-- The value of `*((uint8_t *) a)` for a 16-bit address `a`. -/
def load_byte (t : Target) (s : Hw) (a : Nat) : Nat :=
  if a = t.IAPSR_address then s.IAPSR
  else if a = t.DUKR_address then s.DUKR
  else s.mem a

/-- Modelled from the spec: `EEPROM_end()` of the absent `EEPROM.h`, the size of
the region, `E2END+1` ("region_size"; `E2END` is the last valid offset). -/
def EEPROM_end (t : Target) : Nat := t.E2END + 1

/-- Modelled from the spec: `eeprom_unlocked()` of the absent `EEPROM.h`, "reads
the hardware status flag; returns whether the write-unlock bit is currently set". -/
def eeprom_unlocked (t : Target) (s : Hw) : Bool :=
  (s.IAPSR &&& t.FLASH_FLAG_DUL) != 0

/-- Modelled from the spec: the address designated by `EERef(idx)` of the absent
`EEPROM.h`, "base_address + index", as a 16-bit pointer. -/
def EERef (t : Target) (idx : Int) : Nat :=
  (((t.FLASH_DATA_START_PHYSICAL_ADDRESS : Int) + idx) % 65536).toNat

/-- The function `eeprom_unlock` of the source. -/
def eeprom_unlock (t : Target) (s : Hw) : Hw :=
  if !eeprom_unlocked t s then
    store_DUKR t (store_DUKR t s t.FLASH_RASS_KEY2) t.FLASH_RASS_KEY1
  else s

/-- The function `eeprom_lock` of the source: `FLASH->IAPSR &= FLASH_FLAG_DUL`. -/
def eeprom_lock (t : Target) (s : Hw) : Hw :=
  store_IAPSR s (s.IAPSR &&& t.FLASH_FLAG_DUL)

/-- The function `EEPROM_write` of the source. -/
def EEPROM_write (t : Target) (s : Hw) (idx : Int) (val : Nat) : Hw :=
  let s1 := eeprom_unlock t s
  if eeprom_unlocked t s1 then
    let s2 := store_byte t s1 (EERef t idx) val
    store_IAPSR s2 (s2.IAPSR &&& t.FLASH_FLAG_DUL)
  else s1

/-- The loop `while (len--) { *((uint8_t *) idx++) = *ptr++; written++; }` of
`eeprom_write`: `len` iterations remain, `ptr`, `idx` and `written` are the
16-bit locals. Returns `written` and the state. -/
def write_loop (t : Target) : Nat → Nat → Nat → Nat → Hw → Nat × Hw
  | 0, _, _, written, s => (written, s)
  | len + 1, ptr, idx, written, s =>
    write_loop t len ((ptr + 1) % 65536) ((idx + 1) % 65536) ((written + 1) % 65536)
      (store_byte t s idx (load_byte t s ptr))

/-- The function `eeprom_write` of the source; returns `written` and the new state. -/
def eeprom_write (t : Target) (s : Hw) (idx ptr len : Nat) : Nat × Hw :=
  if idx ≥ EEPROM_end t then (0, s)
  else
    let len1 := if (len + idx) % 65536 > EEPROM_end t then (EEPROM_end t - idx) % 65536 else len
    let idx1 := (idx + t.FLASH_DATA_START_PHYSICAL_ADDRESS % 65536) % 65536
    let s1 := eeprom_unlock t s
    if eeprom_unlocked t s1 then
      let r := write_loop t len1 ptr idx1 0 s1
      (r.1, store_IAPSR r.2 (r.2.IAPSR &&& t.FLASH_FLAG_DUL))
    else (0, s1)

/-- The library call `memcpy(dst, src, n)` on 16-bit pointers, as the byte by
byte copy from the lowest address up. -/
def memcpy (t : Target) : Nat → Nat → Nat → Hw → Hw
  | 0, _, _, s => s
  | n + 1, dst, src, s =>
    memcpy t n ((dst + 1) % 65536) ((src + 1) % 65536)
      (store_byte t s dst (load_byte t s src))

/-- The function `eeprom_read` of the source; returns the length and the new state. -/
def eeprom_read (t : Target) (s : Hw) (idx ptr len : Nat) : Nat × Hw :=
  if idx > t.E2END then (0, s)
  else
    let len1 := if (len + idx) % 65536 > EEPROM_end t then (EEPROM_end t - idx) % 65536 else len
    (len1, memcpy t len1 ptr ((t.FLASH_DATA_START_PHYSICAL_ADDRESS % 65536 + idx) % 65536) s)

/-- A controller that sets the DUL bit `0x08` once the key `0xAE` and then the
key `0x56` have been stored, whatever came before. -/
def rass_accept (log : List RegStore) (st : Nat) : Nat :=
  match log.reverse with
  | RegStore.DUKR 0x56 :: RegStore.DUKR 0xAE :: _ => st ||| 0x08
  | _ => st

/-- A controller that ignores the key register: the unlock always fails. -/
def rass_ignore (_log : List RegStore) (st : Nat) : Nat := st

/-- An STM8 with a 128-byte data EEPROM at `0x4000`, `FLASH->IAPSR` at `0x505F`
and `FLASH->DUKR` at `0x5064`, whose unlock succeeds. -/
def stm8 : Target :=
  ⟨0x4000, 127, 0x08, 0x56, 0xAE, 0x505F, 0x5064, rass_accept⟩

/-- The same device with a controller whose unlock fails. -/
def stm8_stuck : Target :=
  ⟨0x4000, 127, 0x08, 0x56, 0xAE, 0x505F, 0x5064, rass_ignore⟩

/-- A locked device with status register `st`, key register 0, no register
store made yet, and bytes `m`. -/
def boot (st : Nat) (m : Nat → Nat) : Hw := ⟨st, 0, [], m⟩

/-- A device with zeroed bytes and status register `st`. -/
def reset (st : Nat) : Hw := boot st (fun _ => 0)

/-- Bytes that are zero except for the array `[1, 2, ..., 255]` at `0x0100`. -/
def counting : Nat → Nat :=
  fun a => if 0x0100 ≤ a ∧ a < 0x01FF then a - 0x00FF else 0

/-- Bytes holding the low byte of their own address. -/
def ramp : Nat → Nat := fun a => a % 256

/-- The `n` bytes read from address `p` on. -/
def bytes_at (t : Target) (s : Hw) (p n : Nat) : List Nat :=
  (List.range n).map (fun i => load_byte t s ((p + i) % 65536))

/-- The length both bulk functions go on with after their bounds check
`if (len+idx > EEPROM_end()) len = EEPROM_end() - idx;`. -/
def clamped (t : Target) (idx len : Nat) : Nat :=
  if (len + idx) % 65536 > EEPROM_end t then (EEPROM_end t - idx) % 65536 else len

/-- The 16-bit address the bulk functions start at for offset `idx`. -/
def first_address (t : Target) (idx : Nat) : Nat :=
  (idx + t.FLASH_DATA_START_PHYSICAL_ADDRESS % 65536) % 65536

/-- Address `a` lies in the EEPROM region. -/
def in_region (t : Target) (a : Nat) : Prop :=
  t.FLASH_DATA_START_PHYSICAL_ADDRESS ≤ a ∧
    a < t.FLASH_DATA_START_PHYSICAL_ADDRESS + EEPROM_end t

/-- Address `a` is that of one of the two FLASH registers. -/
def is_register (t : Target) (a : Nat) : Prop :=
  a = t.IAPSR_address ∨ a = t.DUKR_address

/-- The region fits the 16-bit address space and holds neither register. -/
def sane (t : Target) : Prop :=
  t.FLASH_DATA_START_PHYSICAL_ADDRESS + EEPROM_end t ≤ 65536 ∧
    ¬ in_region t t.IAPSR_address ∧ ¬ in_region t t.DUKR_address

/-- The `n` bytes from address `p` on lie outside the region and are no register. -/
def apart (t : Target) (p n : Nat) : Prop :=
  ∀ i, i < n → ¬ in_region t ((p + i) % 65536) ∧ ¬ is_register t ((p + i) % 65536)

instance (t : Target) (a : Nat) : Decidable (in_region t a) := by
  unfold in_region
  infer_instance

instance (t : Target) (a : Nat) : Decidable (is_register t a) := by
  unfold is_register
  infer_instance

instance (t : Target) : Decidable (sane t) := by
  unfold sane
  infer_instance

instance (t : Target) (p n : Nat) : Decidable (apart t p n) := by
  unfold apart
  infer_instance

/-! ## Stores and loads through a pointer -/

theorem store_byte_mem_of_ne (t : Target) (s : Hw) (a b v : Nat) (h : a ≠ b) :
    (store_byte t s b v).mem a = s.mem a := by
  unfold store_byte
  split
  · rfl
  · split
    · rfl
    · exact Function.update_noteq h _ _

theorem store_byte_plain (t : Target) (s : Hw) (b v : Nat)
    (h1 : b ≠ t.IAPSR_address) (h2 : b ≠ t.DUKR_address) :
    store_byte t s b v = { s with mem := Function.update s.mem b v } := by
  unfold store_byte
  simp [h1, h2]

theorem load_byte_plain (t : Target) (s : Hw) (a : Nat)
    (h1 : a ≠ t.IAPSR_address) (h2 : a ≠ t.DUKR_address) :
    load_byte t s a = s.mem a := by
  unfold load_byte
  simp [h1, h2]

/-! ## The byte copy -/

theorem memcpy_frame (t : Target) (a : Nat) :
    ∀ (n dst src : Nat) (s : Hw), dst < 65536 →
      (∀ i, i < n → (dst + i) % 65536 ≠ a) →
      (memcpy t n dst src s).mem a = s.mem a := by
  intro n
  induction n with
  | zero =>
    intro dst src s _ _
    simp only [memcpy]
  | succ n ih =>
    intro dst src s hdst h
    rw [memcpy, ih _ _ _ (Nat.mod_lt _ (by norm_num))]
    · have h0 := h 0 (Nat.succ_pos n)
      have hne : a ≠ dst := by omega
      exact store_byte_mem_of_ne t s a dst _ hne
    · intro i hi
      have hi1 := h (i + 1) (Nat.succ_lt_succ hi)
      omega

theorem memcpy_registers (t : Target) :
    ∀ (n dst src : Nat) (s : Hw), dst < 65536 →
      (∀ i, i < n → ¬ is_register t ((dst + i) % 65536)) →
      (memcpy t n dst src s).IAPSR = s.IAPSR ∧ (memcpy t n dst src s).DUKR = s.DUKR ∧
        (memcpy t n dst src s).stores = s.stores := by
  intro n
  induction n with
  | zero =>
    intro dst src s _ _
    simp only [memcpy, and_self]
  | succ n ih =>
    intro dst src s hdst h
    have h0 := h 0 (Nat.succ_pos n)
    have e : (dst + 0) % 65536 = dst := by omega
    rw [e] at h0
    unfold is_register at h0
    have h1 : dst ≠ t.IAPSR_address := fun c => h0 (Or.inl c)
    have h2 : dst ≠ t.DUKR_address := fun c => h0 (Or.inr c)
    rw [memcpy, store_byte_plain t s dst _ h1 h2]
    apply ih _ _ _ (Nat.mod_lt _ (by norm_num))
    intro i hi
    have hi1 := h (i + 1) (Nat.succ_lt_succ hi)
    have e2 : ((dst + 1) % 65536 + i) % 65536 = (dst + (i + 1)) % 65536 := by omega
    rw [e2]
    exact hi1

theorem memcpy_hit (t : Target) :
    ∀ (n dst src : Nat) (s : Hw) (i : Nat), dst < 65536 → src < 65536 →
      n ≤ 65536 → i < n → ¬ is_register t ((dst + i) % 65536) →
      (memcpy t n dst src s).mem ((dst + i) % 65536)
        = load_byte t (memcpy t i dst src s) ((src + i) % 65536) := by
  intro n
  induction n with
  | zero =>
    intro dst src s i _ _ _ hi _
    omega
  | succ n ih =>
    intro dst src s i hdst hsrc hn hi hreg
    cases i with
    | zero =>
      have e : (dst + 0) % 65536 = dst := by omega
      have e1 : (src + 0) % 65536 = src := by omega
      rw [e] at hreg
      unfold is_register at hreg
      have h1 : dst ≠ t.IAPSR_address := fun c => hreg (Or.inl c)
      have h2 : dst ≠ t.DUKR_address := fun c => hreg (Or.inr c)
      rw [e, e1]
      simp only [memcpy]
      rw [memcpy_frame t dst n _ _ _ (Nat.mod_lt _ (by norm_num))]
      · rw [store_byte_plain t s dst _ h1 h2]
        exact Function.update_same _ _ _
      · intro j hj
        omega
    | succ j =>
      have e : (dst + (j + 1)) % 65536 = ((dst + 1) % 65536 + j) % 65536 := by omega
      have e1 : (src + (j + 1)) % 65536 = ((src + 1) % 65536 + j) % 65536 := by omega
      rw [e] at hreg
      rw [e, e1]
      have h := ih ((dst + 1) % 65536) ((src + 1) % 65536)
        (store_byte t s dst (load_byte t s src)) j
        (Nat.mod_lt _ (by norm_num)) (Nat.mod_lt _ (by norm_num)) (by omega) (by omega) hreg
      rw [memcpy]
      rw [h]
      rfl

/-! ## The copy loop of `eeprom_write` -/

theorem write_loop_eq (t : Target) :
    ∀ (len ptr idx written : Nat) (s : Hw), written < 65536 →
      write_loop t len ptr idx written s
        = ((written + len) % 65536, memcpy t len idx ptr s) := by
  intro len
  induction len with
  | zero =>
    intro ptr idx written s h
    simp only [write_loop, memcpy]
    congr 1
    omega
  | succ n ih =>
    intro ptr idx written s _
    rw [write_loop, ih _ _ _ _ (Nat.mod_lt _ (by norm_num)), memcpy]
    congr 1
    omega

/-! ## The unlock and lock operations -/

theorem eeprom_unlock_mem (t : Target) (s : Hw) : (eeprom_unlock t s).mem = s.mem := by
  unfold eeprom_unlock
  split <;> rfl

theorem eeprom_unlock_of_unlocked (t : Target) (s : Hw) (h : eeprom_unlocked t s = true) :
    eeprom_unlock t s = s := by
  unfold eeprom_unlock
  simp [h]

theorem eeprom_unlock_of_locked (t : Target) (s : Hw) (h : eeprom_unlocked t s = false) :
    eeprom_unlock t s =
      store_DUKR t (store_DUKR t s t.FLASH_RASS_KEY2) t.FLASH_RASS_KEY1 := by
  unfold eeprom_unlock
  simp [h]

theorem eeprom_unlocked_lock (t : Target) (s : Hw) :
    eeprom_unlocked t (eeprom_lock t s) = eeprom_unlocked t s := by
  simp only [eeprom_unlocked, eeprom_lock, store_IAPSR]
  rw [Nat.land_assoc, Nat.and_self]

/-! ## The bulk write -/

theorem clamped_lt (t : Target) (idx len : Nat) (hlen : len < 65536) :
    clamped t idx len < 65536 := by
  unfold clamped
  split
  · exact Nat.mod_lt _ (by norm_num)
  · exact hlen

theorem first_address_lt (t : Target) (idx : Nat) : first_address t idx < 65536 :=
  Nat.mod_lt _ (by norm_num)

theorem eeprom_write_locked (t : Target) (s : Hw) (idx ptr len : Nat)
    (hidx : idx < EEPROM_end t) (hu : eeprom_unlocked t (eeprom_unlock t s) = false) :
    eeprom_write t s idx ptr len = (0, eeprom_unlock t s) := by
  unfold eeprom_write
  simp [Nat.not_le.mpr hidx, hu]

theorem eeprom_write_unlocked (t : Target) (s : Hw) (idx ptr len : Nat)
    (hidx : idx < EEPROM_end t) (hu : eeprom_unlocked t (eeprom_unlock t s) = true) :
    eeprom_write t s idx ptr len =
      ((write_loop t (clamped t idx len) ptr (first_address t idx) 0 (eeprom_unlock t s)).1,
       eeprom_lock t
        (write_loop t (clamped t idx len) ptr (first_address t idx) 0 (eeprom_unlock t s)).2) := by
  unfold eeprom_write
  simp [Nat.not_le.mpr hidx, hu, clamped, first_address, eeprom_lock]

theorem eeprom_write_eq (t : Target) (s : Hw) (idx ptr len : Nat)
    (hidx : idx < EEPROM_end t) (hlen : len < 65536)
    (hu : eeprom_unlocked t (eeprom_unlock t s) = true) :
    eeprom_write t s idx ptr len =
      (clamped t idx len,
       eeprom_lock t
        (memcpy t (clamped t idx len) (first_address t idx) ptr (eeprom_unlock t s))) := by
  rw [eeprom_write_unlocked t s idx ptr len hidx hu,
    write_loop_eq t _ _ _ _ _ (by norm_num)]
  have := clamped_lt t idx len hlen
  congr 1
  show (0 + clamped t idx len) % 65536 = clamped t idx len
  omega

/-! ## The bulk read -/

theorem eeprom_read_in_range (t : Target) (s : Hw) (idx ptr len : Nat)
    (hidx : idx < EEPROM_end t) :
    eeprom_read t s idx ptr len =
      (clamped t idx len, memcpy t (clamped t idx len) ptr (first_address t idx) s) := by
  have h : ¬ idx > t.E2END := by
    unfold EEPROM_end at hidx
    omega
  unfold eeprom_read
  simp [h, clamped, first_address, Nat.add_comm]

theorem out_of_range_is_noop_aux (t : Target) (s : Hw) (idx ptr len : Nat)
    (h : EEPROM_end t ≤ idx) :
    eeprom_write t s idx ptr len = (0, s) ∧ eeprom_read t s idx ptr len = (0, s) := by
  constructor
  · unfold eeprom_write
    simp [h]
  · have h1 : idx > t.E2END := by
      unfold EEPROM_end at h
      omega
    unfold eeprom_read
    simp [h1]

theorem eeprom_lock_mem (t : Target) (s : Hw) : (eeprom_lock t s).mem = s.mem := rfl

/-- A copy whose destination bytes are no registers and whose source bytes are
neither registers nor earlier destination bytes puts the source bytes, as they
were before the copy, at the destination. -/
theorem memcpy_apart (t : Target) (n dst src : Nat) (s : Hw) (hdst : dst < 65536)
    (hsrc : src < 65536) (hn : n ≤ 65536)
    (hd : ∀ i, i < n → ¬ is_register t ((dst + i) % 65536))
    (hsr : ∀ i, i < n → ¬ is_register t ((src + i) % 65536))
    (hne : ∀ i j, i < n → j < i → (dst + j) % 65536 ≠ (src + i) % 65536)
    (i : Nat) (hi : i < n) :
    (memcpy t n dst src s).mem ((dst + i) % 65536) = s.mem ((src + i) % 65536) := by
  have hr := hsr i hi
  unfold is_register at hr
  rw [memcpy_hit t n dst src s i hdst hsrc hn hi (hd i hi),
    load_byte_plain t _ _ (fun c => hr (Or.inl c)) (fun c => hr (Or.inr c)),
    memcpy_frame t _ i dst src s hdst (fun j hj => hne i j hi hj)]

/-! ## Behaviour when the 16-bit sum `len+idx` does not wrap -/

theorem clamped_of_no_wrap (t : Target) (idx len : Nat) (hidx : idx < EEPROM_end t)
    (hw : len + idx < 65536) : clamped t idx len = min len (EEPROM_end t - idx) := by
  unfold clamped
  have e : (len + idx) % 65536 = len + idx := Nat.mod_eq_of_lt hw
  rw [e]
  split
  · have e2 : (EEPROM_end t - idx) % 65536 = EEPROM_end t - idx :=
      Nat.mod_eq_of_lt (by omega)
    rw [e2]
    omega
  · omega

theorem region_address (t : Target) (idx i : Nat) (hs : sane t)
    (hi : idx + i < EEPROM_end t) :
    (first_address t idx + i) % 65536 = t.FLASH_DATA_START_PHYSICAL_ADDRESS + idx + i ∧
    in_region t ((first_address t idx + i) % 65536) ∧
    ¬ is_register t ((first_address t idx + i) % 65536) := by
  obtain ⟨hfit, h1, h2⟩ := hs
  have e : (first_address t idx + i) % 65536
      = t.FLASH_DATA_START_PHYSICAL_ADDRESS + idx + i := by
    unfold first_address
    omega
  have hin : in_region t (t.FLASH_DATA_START_PHYSICAL_ADDRESS + idx + i) := by
    unfold in_region
    omega
  rw [e]
  refine ⟨rfl, hin, ?_⟩
  intro hr
  cases hr with
  | inl c => exact h1 (c ▸ hin)
  | inr c => exact h2 (c ▸ hin)

/-- When `len+idx` does not wrap, `eeprom_write` changes no byte outside the
EEPROM region, whatever the state and wherever the source buffer lies. -/
theorem eeprom_write_frame_of_no_wrap (t : Target) (s : Hw) (idx ptr len : Nat)
    (hs : sane t) (hw : len + idx < 65536) (a : Nat) (ha : ¬ in_region t a) :
    (eeprom_write t s idx ptr len).2.mem a = s.mem a := by
  by_cases hidx : idx < EEPROM_end t
  · cases hu : eeprom_unlocked t (eeprom_unlock t s) with
    | false =>
      rw [eeprom_write_locked t s idx ptr len hidx hu]
      exact congrFun (eeprom_unlock_mem t s) a
    | true =>
      rw [eeprom_write_eq t s idx ptr len hidx (by omega) hu, eeprom_lock_mem,
        clamped_of_no_wrap t idx len hidx hw,
        memcpy_frame t a _ _ _ _ (first_address_lt t idx), eeprom_unlock_mem]
      intro i hi hc
      have h := (region_address t idx i hs (by omega)).2.1
      rw [hc] at h
      exact ha h
  · rw [(out_of_range_is_noop_aux t s idx ptr len (Nat.not_lt.mp hidx)).1]

/-- When `len+idx` does not wrap, the unlock succeeds and the source bytes lie
outside the region and are no registers, `eeprom_write` returns
`min(len, region_size - idx)` and stores the source bytes at offset `idx` on. -/
theorem eeprom_write_of_no_wrap (t : Target) (s : Hw) (idx ptr len : Nat)
    (hs : sane t) (hidx : idx < EEPROM_end t) (hw : len + idx < 65536) (hptr : ptr < 65536)
    (hap : apart t ptr (min len (EEPROM_end t - idx)))
    (hu : eeprom_unlocked t (eeprom_unlock t s) = true) :
    (eeprom_write t s idx ptr len).1 = min len (EEPROM_end t - idx) ∧
    ∀ i, i < min len (EEPROM_end t - idx) →
      (eeprom_write t s idx ptr len).2.mem ((first_address t idx + i) % 65536)
        = s.mem ((ptr + i) % 65536) := by
  rw [eeprom_write_eq t s idx ptr len hidx (by omega) hu, eeprom_lock_mem,
    clamped_of_no_wrap t idx len hidx hw]
  refine ⟨rfl, fun i hi => ?_⟩
  rw [memcpy_apart t _ _ _ _ (first_address_lt t idx) hptr (by omega)
    (fun j hj => (region_address t idx j hs (by omega)).2.2)
    (fun j hj => (hap j hj).2)
    (fun j k hj hk hc => (hap j hj).1 (hc ▸ (region_address t idx k hs (by omega)).2.1))
    i hi, eeprom_unlock_mem]

/-- When `len+idx` does not wrap and the destination bytes lie outside the
region and are no registers, `eeprom_read` returns `min(len, region_size - idx)`,
copies that many bytes of the region, from offset `idx` on, to the buffer, and
leaves the registers and the list of register stores as they were. -/
theorem eeprom_read_of_no_wrap (t : Target) (s : Hw) (idx ptr len : Nat)
    (hs : sane t) (hidx : idx < EEPROM_end t) (hw : len + idx < 65536) (hptr : ptr < 65536)
    (hap : apart t ptr (min len (EEPROM_end t - idx))) :
    (eeprom_read t s idx ptr len).1 = min len (EEPROM_end t - idx) ∧
    (∀ i, i < min len (EEPROM_end t - idx) →
      (eeprom_read t s idx ptr len).2.mem ((ptr + i) % 65536)
        = s.mem ((first_address t idx + i) % 65536)) ∧
    (eeprom_read t s idx ptr len).2.IAPSR = s.IAPSR ∧
    (eeprom_read t s idx ptr len).2.stores = s.stores := by
  rw [eeprom_read_in_range t s idx ptr len hidx, clamped_of_no_wrap t idx len hidx hw]
  have hr := memcpy_registers t (min len (EEPROM_end t - idx)) ptr (first_address t idx) s
    hptr (fun j hj => (hap j hj).2)
  refine ⟨rfl, fun i hi => ?_, hr.1, hr.2.2⟩
  exact memcpy_apart t _ _ _ _ hptr (first_address_lt t idx) (by omega)
    (fun j hj => (hap j hj).2)
    (fun j hj => (region_address t idx j hs (by omega)).2.2)
    (fun j k hj hk hc => (hap k (by omega)).1 (hc ▸ (region_address t idx j hs (by omega)).2.1))
    i hi

/-! ## The bulk functions at `idx = 1`, `len = 65535` on the 128-byte device -/

theorem unlocked_after_boot (m : Nat → Nat) :
    eeprom_unlocked stm8 (eeprom_unlock stm8 (boot 0 m)) = true := by
  simp [eeprom_unlocked, eeprom_unlock, store_DUKR, boot, stm8, rass_accept]

theorem clamped_wraps : clamped stm8 1 65535 = 65535 := by decide

theorem first_address_one : first_address stm8 1 = 0x4001 := by decide

theorem eeprom_write_fst (t : Target) (s : Hw) (idx ptr len : Nat)
    (hidx : idx < EEPROM_end t) (hlen : len < 65536)
    (hu : eeprom_unlocked t (eeprom_unlock t s) = true) :
    (eeprom_write t s idx ptr len).1 = clamped t idx len := by
  rw [eeprom_write_eq t s idx ptr len hidx hlen hu]

theorem eeprom_write_mem (t : Target) (s : Hw) (idx ptr len : Nat)
    (hidx : idx < EEPROM_end t) (hlen : len < 65536)
    (hu : eeprom_unlocked t (eeprom_unlock t s) = true) :
    (eeprom_write t s idx ptr len).2.mem =
      (memcpy t (clamped t idx len) (first_address t idx) ptr (eeprom_unlock t s)).mem := by
  rw [eeprom_write_eq t s idx ptr len hidx hlen hu]
  rfl

theorem eeprom_read_fst (t : Target) (s : Hw) (idx ptr len : Nat)
    (hidx : idx < EEPROM_end t) :
    (eeprom_read t s idx ptr len).1 = clamped t idx len := by
  rw [eeprom_read_in_range t s idx ptr len hidx]

theorem eeprom_read_snd (t : Target) (s : Hw) (idx ptr len : Nat)
    (hidx : idx < EEPROM_end t) :
    (eeprom_read t s idx ptr len).2
      = memcpy t (clamped t idx len) ptr (first_address t idx) s := by
  rw [eeprom_read_in_range t s idx ptr len hidx]

/-- Byte `i` of a wrapping write from `0x0100`, for `i` below `0x3F01`, the
iteration whose source is the first byte already stored to. -/
theorem eeprom_write_wrapping_byte (m : Nat → Nat) (i : Nat) (hi : i < 0x3F01)
    (h1 : 0x4001 + i ≠ 0x505F) (h2 : 0x4001 + i ≠ 0x5064) :
    (eeprom_write stm8 (boot 0 m) 1 0x0100 65535).2.mem (0x4001 + i) = m (0x0100 + i) := by
  rw [eeprom_write_mem stm8 (boot 0 m) 1 0x0100 65535 (by decide) (by decide)
    (unlocked_after_boot m), clamped_wraps, first_address_one]
  have ed : (0x4001 + i) % 65536 = 0x4001 + i := by omega
  have es : (0x0100 + i) % 65536 = 0x0100 + i := by omega
  have hreg : ¬ is_register stm8 ((0x4001 + i) % 65536) := by
    rw [ed]
    intro c
    cases c with
    | inl c => exact h1 c
    | inr c => exact h2 c
  have h := memcpy_hit stm8 65535 0x4001 0x0100 (eeprom_unlock stm8 (boot 0 m)) i
    (by norm_num) (by norm_num) (by norm_num) (by omega) hreg
  rw [ed, es] at h
  have p1 : 0x0100 + i ≠ stm8.IAPSR_address := by
    show 0x0100 + i ≠ 0x505F
    omega
  have p2 : 0x0100 + i ≠ stm8.DUKR_address := by
    show 0x0100 + i ≠ 0x5064
    omega
  rw [h, load_byte_plain stm8 _ _ p1 p2,
    memcpy_frame stm8 _ i 0x4001 0x0100 _ (by norm_num) (fun j hj => by omega),
    eeprom_unlock_mem]
  rfl

/-- Byte `i` of a wrapping read to address `q`, for the iterations before the
destination reaches the byte read. -/
theorem eeprom_read_wrapping_byte (s : Hw) (q i : Nat) (hq : q < 65536) (hi : i < 65535)
    (hd : ¬ is_register stm8 ((q + i) % 65536))
    (hsr : ¬ is_register stm8 ((0x4001 + i) % 65536))
    (hne : ∀ j, j < i → (q + j) % 65536 ≠ (0x4001 + i) % 65536) :
    (eeprom_read stm8 s 1 q 65535).2.mem ((q + i) % 65536) = s.mem ((0x4001 + i) % 65536) := by
  rw [eeprom_read_snd stm8 s 1 q 65535 (by decide), clamped_wraps, first_address_one]
  unfold is_register at hsr
  have h := memcpy_hit stm8 65535 q 0x4001 s i hq (by norm_num) (by norm_num) hi hd
  rw [h, load_byte_plain stm8 _ _ (fun c => hsr (Or.inl c)) (fun c => hsr (Or.inr c)),
    memcpy_frame stm8 _ i q 0x4001 s hq hne]

theorem memcpy_zero (t : Target) (dst src : Nat) (s : Hw) : memcpy t 0 dst src s = s := rfl

/-- Byte `0x3F01` of a wrapping write from `0x0100`: its source address is
`0x4001`, which iteration 0 stored byte 0 of the source to. -/
theorem eeprom_write_wrapping_overlap (m : Nat → Nat) :
    (eeprom_write stm8 (boot 0 m) 1 0x0100 65535).2.mem 0x7F02 = m 0x0100 := by
  rw [eeprom_write_mem stm8 (boot 0 m) 1 0x0100 65535 (by decide) (by decide)
    (unlocked_after_boot m), clamped_wraps, first_address_one]
  have h := memcpy_hit stm8 65535 0x4001 0x0100 (eeprom_unlock stm8 (boot 0 m)) 0x3F01
    (by norm_num) (by norm_num) (by norm_num) (by norm_num) (by decide)
  have ed : (0x4001 + 0x3F01) % 65536 = 0x7F02 := by norm_num
  have es : (0x0100 + 0x3F01) % 65536 = 0x4001 := by norm_num
  rw [ed, es] at h
  have h2 := memcpy_hit stm8 0x3F01 0x4001 0x0100 (eeprom_unlock stm8 (boot 0 m)) 0
    (by norm_num) (by norm_num) (by norm_num) (by norm_num) (by decide)
  have ed2 : (0x4001 + 0) % 65536 = 0x4001 := by norm_num
  have es2 : (0x0100 + 0) % 65536 = 0x0100 := by norm_num
  rw [ed2, es2, memcpy_zero, load_byte_plain stm8 _ _ (by decide) (by decide),
    eeprom_unlock_mem] at h2
  rw [h, load_byte_plain stm8 _ _ (by decide) (by decide), h2]
  rfl

/-! ## Claims -/

/-- C1 fails on the code. With `idx = 1` and `len = 65535` the 16-bit sum
`len+idx` is `0`, the length is not clamped, and `eeprom_write` stores all
65535 bytes: on the 128-byte device the byte at `0x4080`, the first address
after the region `[0x4000, 0x4080)`, receives byte 127 of the source buffer at
`0x0100`, whatever memory holds; with the array `[1, 2, 3, ...]` there, that
byte changes from 0 to 128. -/
theorem eeprom_write_overruns_region :
    ¬ in_region stm8 0x4080 ∧
    (∀ m : Nat → Nat,
      (eeprom_write stm8 (boot 0 m) 1 0x0100 65535).2.mem 0x4080 = m 0x017F) ∧
    (boot 0 counting).mem 0x4080 = 0 ∧
    (eeprom_write stm8 (boot 0 counting) 1 0x0100 65535).2.mem 0x4080 = 128 := by
  have key : ∀ m : Nat → Nat,
      (eeprom_write stm8 (boot 0 m) 1 0x0100 65535).2.mem 0x4080 = m 0x017F := by
    intro m
    have h := eeprom_write_wrapping_byte m 127 (by norm_num) (by norm_num) (by norm_num)
    have e1 : 0x4001 + 127 = 0x4080 := by norm_num
    have e2 : 0x0100 + 127 = 0x017F := by norm_num
    rw [e1, e2] at h
    exact h
  refine ⟨by decide, key, by decide, ?_⟩
  rw [key counting]
  decide

/-- C2: for every `idx` at or beyond the size of the region, `eeprom_write` and
`eeprom_read` return 0 and leave the whole state as it was: every byte of
memory (the region and the caller's buffer among them), the status register,
the key register and the list of register stores, so no key is stored. -/
theorem out_of_range_is_noop (t : Target) (s : Hw) (idx ptr len : Nat)
    (h : EEPROM_end t ≤ idx) :
    eeprom_write t s idx ptr len = (0, s) ∧ eeprom_read t s idx ptr len = (0, s) :=
  out_of_range_is_noop_aux t s idx ptr len h

theorem out_of_range_is_noop_witness :
    EEPROM_end stm8 ≤ 200 ∧
    eeprom_write stm8 (boot 0 counting) 200 0x0100 5 = (0, boot 0 counting) ∧
    eeprom_read stm8 (boot 0 counting) 200 0x0100 5 = (0, boot 0 counting) :=
  ⟨by decide, out_of_range_is_noop stm8 (boot 0 counting) 200 0x0100 5 (by decide)⟩

/-- C3 fails on the code. With `idx = 1` and `len = 65535` the 16-bit sum
`len+idx` is `0`, the length is not clamped, and `eeprom_read` returns 65535
where `min(len, region_size - idx)` is 127; byte 127 of the caller's buffer at
`0x0100` is the byte at `0x4080`, beyond the end of the region. -/
theorem eeprom_read_overruns_region (s : Hw) :
    (eeprom_read stm8 s 1 0x0100 65535).1 = 65535 ∧
    min 65535 (EEPROM_end stm8 - 1) = 127 ∧
    (eeprom_read stm8 s 1 0x0100 65535).2.mem 0x017F = s.mem 0x4080 ∧
    ¬ in_region stm8 0x4080 := by
  refine ⟨?_, by decide, ?_, by decide⟩
  · rw [eeprom_read_fst stm8 s 1 0x0100 65535 (by decide), clamped_wraps]
  · have h := eeprom_read_wrapping_byte s 0x0100 127 (by norm_num) (by norm_num) (by decide)
      (by decide) (fun j hj => by omega)
    have e1 : (0x0100 + 127) % 65536 = 0x017F := by norm_num
    have e2 : (0x4001 + 127) % 65536 = 0x4080 := by norm_num
    rw [e1, e2] at h
    exact h

/-- C5 fails on the code. With `idx = 1` and `len = 65535` on the unlocked
128-byte device the 16-bit sum `len+idx` is `0`, the length is not clamped, and
`eeprom_write` returns 65535 where `min(len, region_size - idx)` is 127,
whatever memory holds and wherever the source buffer lies. -/
theorem eeprom_write_returns_unclamped (m : Nat → Nat) (ptr : Nat) :
    eeprom_unlocked stm8 (eeprom_unlock stm8 (boot 0 m)) = true ∧
    (eeprom_write stm8 (boot 0 m) 1 ptr 65535).1 = 65535 ∧
    min 65535 (EEPROM_end stm8 - 1) = 127 := by
  refine ⟨unlocked_after_boot m, ?_, by decide⟩
  rw [eeprom_write_fst stm8 _ 1 ptr 65535 (by decide) (by decide) (unlocked_after_boot m),
    clamped_wraps]

/-- C6 fails on the code. `eeprom_lock` stores `IAPSR & FLASH_FLAG_DUL`, which
keeps the DUL bit: `eeprom_unlocked()` reports after `eeprom_lock()` what it
reported before, on every target and state. On the 128-byte device it still
reports true after `eeprom_lock()` from status `0x08`, and from the states
`eeprom_write` and `EEPROM_write` leave behind. -/
theorem eeprom_lock_keeps_DUL :
    (∀ (t : Target) (s : Hw), eeprom_unlocked t (eeprom_lock t s) = eeprom_unlocked t s) ∧
    eeprom_unlocked stm8 (eeprom_lock stm8 (reset 0x08)) = true ∧
    eeprom_unlocked stm8
      (eeprom_lock stm8 (eeprom_write stm8 (boot 0 counting) 0 0x0100 1).2) = true ∧
    eeprom_unlocked stm8 (eeprom_lock stm8 (EEPROM_write stm8 (reset 0) 0 7)) = true :=
  ⟨eeprom_unlocked_lock, by decide, by decide, by decide⟩

/-- C7 as stated fails: on a device whose unlock fails, starting with status
`0x02`, `EEPROM_write` and `eeprom_write` store only the two keys and leave the
status register at `0x02`, where `eeprom_lock` applied after the unlock attempt
gives `0x00`. -/
theorem lock_skipped_when_unlock_fails :
    eeprom_unlocked stm8_stuck (eeprom_unlock stm8_stuck (reset 2)) = false ∧
    (EEPROM_write stm8_stuck (reset 2) 0 7).IAPSR
      ≠ (eeprom_lock stm8_stuck (eeprom_unlock stm8_stuck (reset 2))).IAPSR ∧
    (eeprom_write stm8_stuck (reset 2) 0 0x0100 1).2.IAPSR
      ≠ (eeprom_lock stm8_stuck (eeprom_unlock stm8_stuck (reset 2))).IAPSR ∧
    (EEPROM_write stm8_stuck (reset 2) 0 7).IAPSR = 2 ∧
    (eeprom_write stm8_stuck (reset 2) 0 0x0100 1).2.IAPSR = 2 ∧
    (eeprom_lock stm8_stuck (eeprom_unlock stm8_stuck (reset 2))).IAPSR = 0 ∧
    (EEPROM_write stm8_stuck (reset 2) 0 7).stores
      = [RegStore.DUKR 0xAE, RegStore.DUKR 0x56] ∧
    (eeprom_write stm8_stuck (reset 2) 0 0x0100 1).2.stores
      = [RegStore.DUKR 0xAE, RegStore.DUKR 0x56] := by
  decide

/-- C7, amended: `EEPROM_write` and `eeprom_write` (for in-range `idx`) apply the
lock operation exactly when the EEPROM is unlocked after the unlock attempt:
then the final state, status register and register stores included, is that
of `eeprom_lock` applied after the unlock attempt and the store phase; when the
unlock attempt fails it is the state as it stood after the unlock attempt. -/
theorem lock_applied_iff_unlocked (t : Target) (s : Hw) (idx : Int) (val : Nat)
    (idx16 ptr len : Nat) :
    (eeprom_unlocked t (eeprom_unlock t s) = true →
      EEPROM_write t s idx val
        = eeprom_lock t (store_byte t (eeprom_unlock t s) (EERef t idx) val) ∧
      (idx16 < EEPROM_end t →
        (eeprom_write t s idx16 ptr len).2
          = eeprom_lock t (write_loop t (clamped t idx16 len) ptr (first_address t idx16) 0
              (eeprom_unlock t s)).2)) ∧
    (eeprom_unlocked t (eeprom_unlock t s) = false →
      EEPROM_write t s idx val = eeprom_unlock t s ∧
      (idx16 < EEPROM_end t → (eeprom_write t s idx16 ptr len).2 = eeprom_unlock t s)) := by
  constructor
  · intro hu
    refine ⟨?_, fun hidx => ?_⟩
    · simp [EEPROM_write, hu, eeprom_lock]
    · rw [eeprom_write_unlocked t s idx16 ptr len hidx hu]
  · intro hu
    refine ⟨?_, fun hidx => ?_⟩
    · simp [EEPROM_write, hu]
    · rw [eeprom_write_locked t s idx16 ptr len hidx hu]

theorem lock_applied_iff_unlocked_witness :
    (EEPROM_write stm8 (reset 2) 0 7).IAPSR = 8 ∧
    (eeprom_write stm8 (boot 2 counting) 0 0x0100 1).2.IAPSR = 8 ∧
    EEPROM_write stm8_stuck (reset 2) 0 7 = eeprom_unlock stm8_stuck (reset 2) ∧
    (eeprom_write stm8_stuck (boot 2 counting) 0 0x0100 1).2
      = eeprom_unlock stm8_stuck (boot 2 counting) :=
  ⟨(congrArg Hw.IAPSR
      ((lock_applied_iff_unlocked stm8 (reset 2) 0 7 0 0x0100 1).1 (by decide)).1).trans
      (by decide),
    (congrArg Hw.IAPSR
      (((lock_applied_iff_unlocked stm8 (boot 2 counting) 0 7 0 0x0100 1).1 (by decide)).2
        (by decide))).trans (by decide),
    ((lock_applied_iff_unlocked stm8_stuck (reset 2) 0 7 0 0x0100 1).2 (by decide)).1,
    ((lock_applied_iff_unlocked stm8_stuck (boot 2 counting) 0 7 0 0x0100 1).2 (by decide)).2
      (by decide)⟩

/-- C8: `eeprom_unlock` leaves the whole state unchanged when `eeprom_unlocked()`
is already true; when it is false it stores exactly `FLASH_RASS_KEY2` and then
`FLASH_RASS_KEY1` to the key register, makes no other register store, leaves
memory alone, and the status register is what the controller made of the two
keys. Hence a second call after a call that unlocked changes nothing. -/
theorem eeprom_unlock_idempotent (t : Target) (s : Hw) :
    (eeprom_unlocked t s = true → eeprom_unlock t s = s) ∧
    (eeprom_unlocked t s = false →
      (eeprom_unlock t s).stores
        = s.stores ++ [RegStore.DUKR t.FLASH_RASS_KEY2, RegStore.DUKR t.FLASH_RASS_KEY1] ∧
      (eeprom_unlock t s).mem = s.mem ∧
      (eeprom_unlock t s).IAPSR
        = t.dukr_response
            (s.stores ++ [RegStore.DUKR t.FLASH_RASS_KEY2, RegStore.DUKR t.FLASH_RASS_KEY1])
            (t.dukr_response (s.stores ++ [RegStore.DUKR t.FLASH_RASS_KEY2]) s.IAPSR) ∧
      (eeprom_unlock t s).DUKR = t.FLASH_RASS_KEY1) ∧
    (eeprom_unlocked t (eeprom_unlock t s) = true →
      eeprom_unlock t (eeprom_unlock t s) = eeprom_unlock t s) := by
  refine ⟨eeprom_unlock_of_unlocked t s, fun h => ?_, eeprom_unlock_of_unlocked t _⟩
  rw [eeprom_unlock_of_locked t s h]
  simp [store_DUKR]

theorem eeprom_unlock_idempotent_witness :
    eeprom_unlock stm8 (reset 8) = reset 8 ∧
    (eeprom_unlock stm8 (reset 0)).stores = [RegStore.DUKR 0xAE, RegStore.DUKR 0x56] ∧
    (eeprom_unlock stm8 (eeprom_unlock stm8 (reset 0))).stores
      = [RegStore.DUKR 0xAE, RegStore.DUKR 0x56] :=
  ⟨(eeprom_unlock_idempotent stm8 (reset 8)).1 (by decide),
    ((eeprom_unlock_idempotent stm8 (reset 0)).2.1 (by decide)).1,
    (congrArg Hw.stores ((eeprom_unlock_idempotent stm8 (reset 0)).2.2 (by decide))).trans
      ((eeprom_unlock_idempotent stm8 (reset 0)).2.1 (by decide)).1⟩

/-- C9 as stated fails. `idx = 0x105F` designates the status register itself
(`0x4000 + 0x105F = 0x505F`): `EEPROM_write(0x105F, 0xFF)` on the unlocked
device stores `0xFF` there and then executes `FLASH->IAPSR &= FLASH_FLAG_DUL`,
so the byte at that address ends as `0x08`, not as `val`. And with an in-range
`idx` a byte other than the one at `base + idx` changes: the status register,
from 0 to 8. -/
theorem EEPROM_write_reaches_status_register :
    EERef stm8 0x105F = stm8.IAPSR_address ∧
    eeprom_unlocked stm8 (eeprom_unlock stm8 (reset 0)) = true ∧
    load_byte stm8 (EEPROM_write stm8 (reset 0) 0x105F 0xFF) (EERef stm8 0x105F) = 0x08 ∧
    load_byte stm8 (reset 0) 0x505F = 0 ∧
    load_byte stm8 (EEPROM_write stm8 (reset 0) 0 7) 0x505F = 8 := by
  decide

/-- C9, amended: `EEPROM_write` has no bounds check. For every `idx` whose
16-bit address `FLASH_DATA_START_PHYSICAL_ADDRESS + idx` is not that of the
status register, and every `val`: if the EEPROM is unlocked after the unlock
attempt, the byte at that address becomes `val` and every other byte that is
not a FLASH register is unchanged; if it is still locked, every byte that is
not a FLASH register is unchanged. For `idx = E2END + 1`, one past the last
valid offset, the byte stored to lies outside the EEPROM region. -/
theorem EEPROM_write_unchecked (t : Target) (s : Hw) (idx : Int) (val : Nat) :
    (eeprom_unlocked t (eeprom_unlock t s) = true → EERef t idx ≠ t.IAPSR_address →
      load_byte t (EEPROM_write t s idx val) (EERef t idx) = val ∧
      ∀ a, a ≠ EERef t idx → ¬ is_register t a →
        load_byte t (EEPROM_write t s idx val) a = load_byte t s a) ∧
    (eeprom_unlocked t (eeprom_unlock t s) = false →
      ∀ a, ¬ is_register t a → load_byte t (EEPROM_write t s idx val) a = load_byte t s a) ∧
    (0 ≤ (t.FLASH_DATA_START_PHYSICAL_ADDRESS : Int) + idx →
      (t.FLASH_DATA_START_PHYSICAL_ADDRESS : Int) + idx < 65536 →
      (EERef t idx : Int) = (t.FLASH_DATA_START_PHYSICAL_ADDRESS : Int) + idx) ∧
    (t.FLASH_DATA_START_PHYSICAL_ADDRESS + EEPROM_end t < 65536 →
      EEPROM_end t ≤ 32767 →
      EERef t (EEPROM_end t : Nat) = t.FLASH_DATA_START_PHYSICAL_ADDRESS + EEPROM_end t ∧
      ¬ in_region t (EERef t (EEPROM_end t : Nat))) := by
  refine ⟨fun hu hne => ⟨?_, fun a ha hreg => ?_⟩, fun hu a hreg => ?_, fun h0 h1 => ?_,
    fun hb _ => ?_⟩
  · by_cases hd : EERef t idx = t.DUKR_address
    · have hne2 : t.DUKR_address ≠ t.IAPSR_address := hd ▸ hne
      simp [EEPROM_write, hu, store_IAPSR, store_byte, load_byte, hd, hne2, store_DUKR]
    · simp [EEPROM_write, hu, store_IAPSR, store_byte, load_byte, hne, hd]
  · unfold is_register at hreg
    have h1 : a ≠ t.IAPSR_address := fun c => hreg (Or.inl c)
    have h2 : a ≠ t.DUKR_address := fun c => hreg (Or.inr c)
    rw [load_byte_plain t _ a h1 h2, load_byte_plain t _ a h1 h2]
    simp only [EEPROM_write, hu, if_true, store_IAPSR]
    rw [store_byte_mem_of_ne t _ a _ _ ha, eeprom_unlock_mem]
  · unfold is_register at hreg
    have h1 : a ≠ t.IAPSR_address := fun c => hreg (Or.inl c)
    have h2 : a ≠ t.DUKR_address := fun c => hreg (Or.inr c)
    rw [load_byte_plain t _ a h1 h2, load_byte_plain t _ a h1 h2]
    simp [EEPROM_write, hu, eeprom_unlock_mem]
  · unfold EERef
    omega
  · have ha : EERef t (EEPROM_end t : Nat)
        = t.FLASH_DATA_START_PHYSICAL_ADDRESS + EEPROM_end t := by
      unfold EERef
      omega
    rw [ha]
    refine ⟨rfl, ?_⟩
    unfold in_region
    omega

theorem EEPROM_write_unchecked_witness :
    (EERef stm8 128 = 0x4080 ∧ ¬ in_region stm8 (EERef stm8 128)) ∧
    load_byte stm8 (EEPROM_write stm8 (reset 0) 128 7) (EERef stm8 128) = 7 ∧
    load_byte stm8 (EEPROM_write stm8 (reset 0) 128 7) 0x4000
      = load_byte stm8 (reset 0) 0x4000 ∧
    load_byte stm8 (EEPROM_write stm8_stuck (reset 0) 128 7) 0x4080
      = load_byte stm8_stuck (reset 0) 0x4080 :=
  ⟨(EEPROM_write_unchecked stm8 (reset 0) 128 7).2.2.2 (by decide) (by decide),
    ((EEPROM_write_unchecked stm8 (reset 0) 128 7).1 (by decide) (by decide)).1,
    ((EEPROM_write_unchecked stm8 (reset 0) 128 7).1 (by decide) (by decide)).2 0x4000
      (by decide) (by decide),
    (EEPROM_write_unchecked stm8_stuck (reset 0) 128 7).2.1 (by decide) 0x4080 (by decide)⟩

end EEPROM
